import Mathlib

/-!
Verification of the plan-validation and timeline-composition engine of the
shepherds_desk repository.

The Python sources are shallowly embedded below:
* `validators/json_validate.py` (v1 invariant validator: fixed 6 clips, 10 s each)
* `packages/generator/generator/validators/json_validate.py` (v2 invariant validator)
* `packages/generator/generator/mappers.py` (per-clip speech derivation)
* `video_compose.py` (slot-fit composer) and
  `packages/generator/generator/video_compose.py` (lead/trail-pad composer)

Modelling conventions:
* numbers the Python code holds as floats are exact rationals (ℚ);
  `int(round(x))` is `pyRound`, Python's round-half-to-even;
* Python strings are `List Char`, so that `str.strip` / `str.split` /
  `" ".join` have direct structurally recursive counterparts;
* moviepy audio clips are the inductive `AudioClip`, recording exactly the
  constructions this code performs (file clip, zero array, subclip, binary
  concatenation) together with moviepy's duration arithmetic;
* `sys.exit(1)` / `raise ValueError` become `Except` with structured error
  values, one constructor per `raise`/`exit` site, carrying the clip
  index/position that the original message interpolates;
* file-system access is an explicit asset resolver, `ℤ → Bool` for
  `imageExists` and `ℤ → Option AudioFileInfo` for `audioInfo`.
-/

/-- Python `int(round(x))`: round half to even, on exact rationals. -/
def pyRound (q : ℚ) : ℤ :=
  let f := ⌊q⌋
  let r := q - f
  if r < 1/2 then f
  else if 1/2 < r then f + 1
  else if f % 2 = 0 then f else f + 1

/-- Piper default sample rate, `DEFAULT_SR = 24000` in both compose scripts. -/
def DEFAULT_SR : ℕ := 24000

/-- Sample count of `make_silence_array`: `n = max(1, int(round(duration * fps)))`. -/
def silence_samples (duration : ℚ) (fps : ℕ) : ℕ :=
  (max 1 (pyRound (duration * (fps : ℚ)))).toNat

/-- The moviepy audio-clip values constructed by the two compose scripts:
`AudioFileClip` (known duration, sample rate, channel count), a zero
`AudioArrayClip`, `subclip`, and two-element `concatenate_audioclips`. -/
inductive AudioClip where
  | fileClip (duration : ℚ) (fps : ℕ) (nchannels : ℕ)
  | arrayClip (samples : ℕ) (fps : ℕ) (nchannels : ℕ)
  | subclipOf (a : AudioClip) (t0 t1 : ℚ)
  | concat2 (a b : AudioClip)
deriving DecidableEq

/-- moviepy's duration arithmetic for the clips above: an array clip lasts
`samples / fps`, a subclip `t1 - t0`, a concatenation the sum of durations. -/
def AudioClip.duration : AudioClip → ℚ
  | .fileClip d _ _ => d
  | .arrayClip n fps _ => (n : ℚ) / (fps : ℚ)
  | .subclipOf _ t0 t1 => t1 - t0
  | .concat2 a b => a.duration + b.duration

/-- `make_silence_array(duration, fps, nchannels)`: digital silence of
`max(1, round(duration*fps))` samples at rate `fps`. -/
def make_silence_array (duration : ℚ) (fps : ℕ) (nchannels : ℕ) : AudioClip :=
  .arrayClip (silence_samples duration fps) fps nchannels

/-- What the asset resolver reports for an audio file that exists on disk. -/
structure AudioFileInfo where
  duration : ℚ
  fps : ℕ
  nchannels : ℕ
deriving DecidableEq

/-- `build_padded_audio(wav_path, lead, trail, min_dur)` from the lead/trail-pad
composer.  If the WAV exists, lead and trail silence are concatenated around it
(each only when the constant is `> 0`) and the actual clip duration is
returned; if it does not exist, the returned duration is the nominal
`max(min_dur, lead + trail)` and the clip is synthesized silence of that
nominal length at `DEFAULT_SR`, mono. -/
def build_padded_audio (wav : Option AudioFileInfo) (lead trail min_dur : ℚ) :
    AudioClip × ℚ :=
  match wav with
  | some a =>
      let core0 : AudioClip := .fileClip a.duration a.fps a.nchannels
      let core1 : AudioClip :=
        if 0 < lead then .concat2 (make_silence_array lead a.fps a.nchannels) core0
        else core0
      let core2 : AudioClip :=
        if 0 < trail then .concat2 core1 (make_silence_array trail a.fps a.nchannels)
        else core1
      (core2, core2.duration)
  | none =>
      let dur := max min_dur (lead + trail)
      (make_silence_array dur DEFAULT_SR 1, dur)

/-- Whitespace test used by Python `str.split()` / `str.strip()`. -/
def isWs (c : Char) : Bool := c.isWhitespace

/-- Python `s.strip()`. -/
def pyStrip (s : List Char) : List Char :=
  ((s.dropWhile isWs).reverse.dropWhile isWs).reverse

/-- Helper for Python `s.split()`: `cur` is the current word, reversed. -/
def splitWsAux : List Char → List Char → List (List Char)
  | [], cur => if cur = [] then [] else [cur.reverse]
  | c :: rest, cur =>
      if isWs c then
        if cur = [] then splitWsAux rest [] else cur.reverse :: splitWsAux rest []
      else splitWsAux rest (c :: cur)

/-- Python `s.split()`: maximal nonempty runs of non-whitespace. -/
def splitWs (s : List Char) : List (List Char) := splitWsAux s []

/-- Python `" ".join(words)`. -/
def joinSpace : List (List Char) → List Char
  | [] => []
  | [w] => w
  | w :: rest => w ++ ' ' :: joinSpace rest

/-- Python `" ".join(s.split())`: whitespace normalization. -/
def normWords (s : List Char) : List Char := joinSpace (splitWs s)

/-- A `verse` object `{ref, text}`.  A clip whose `verse` value is absent or
falsy is modelled with `verse = none`, so `ref` and `text` here are the
looked-up strings with `""` for a missing key. -/
structure Verse where
  ref : List Char
  text : List Char
deriving DecidableEq

/-- A plan clip as the composers and the mappers read it.  Optional keys are
`Option` (`none` = key absent); `start_sec`/`end_sec` are optional because the
slot-fit composer probes for their presence (`get_clip_times`). -/
structure Clip where
  index : ℤ
  start_sec : Option ℚ := none
  end_sec : Option ℚ := none
  dialogue : Option (List Char) := none
  dialogue_text : Option (List Char) := none
  verse : Option Verse := none
  subtitle : Option (List Char) := none
deriving DecidableEq

/-- The v2 parts list common to `_clip_speech_v2` (mappers) and
`clip_spoken_text` (slot-fit composer): the verse text — with the stripped ref
appended as `" (ref)."` when that is nonempty — whenever the verse text is
truthy, then `dialogue_text` whenever truthy. -/
def clip_speech_v2_parts (c : Clip) : List (List Char) :=
  (match c.verse with
   | some v =>
       if v.text ≠ [] then
         [if pyStrip v.ref ≠ [] then
            v.text ++ " (".data ++ pyStrip v.ref ++ ").".data
          else v.text]
       else []
   | none => []) ++
  (match c.dialogue_text with
   | some dt => if dt ≠ [] then [dt] else []
   | none => [])

/-- `clip_spoken_text` from `video_compose.py` (slot-fit script): a clip with a
`dialogue_text` or `verse` key uses the v2 parts, any other clip the v1
`dialogue` field; either way whitespace-normalized. -/
def clip_spoken_text (c : Clip) : List Char :=
  if c.dialogue_text.isSome || c.verse.isSome then
    normWords (joinSpace (clip_speech_v2_parts c))
  else
    normWords (c.dialogue.getD [])

/-- `_clip_speech` from `packages/generator/generator/mappers.py`: same
per-clip version test; the v1 branch only strips (no whitespace collapsing). -/
def clip_speech (c : Clip) : List Char :=
  if c.dialogue_text.isSome || c.verse.isSome then
    normWords (joinSpace (clip_speech_v2_parts c))
  else
    pyStrip (c.dialogue.getD [])

/-- `clip_subtitle` from `video_compose.py`: the explicit `subtitle` wins when
it strips to nonempty, else the derived spoken text. -/
def clip_subtitle (c : Clip) : List Char :=
  match c.subtitle with
  | some sub => if pyStrip sub ≠ [] then normWords (pyStrip sub) else clip_spoken_text c
  | none => clip_spoken_text c

/-- `clip_text_for_caption` from the lead/trail-pad composer: the first of
`subtitle`, `dialogue_text`, `dialogue` that strips to nonempty, normalized;
`""` when none does.  (The verse text is never consulted here.) -/
def clip_text_for_caption (c : Clip) : List Char :=
  if pyStrip (c.subtitle.getD []) ≠ [] then normWords (pyStrip (c.subtitle.getD []))
  else if pyStrip (c.dialogue_text.getD []) ≠ [] then
    normWords (pyStrip (c.dialogue_text.getD []))
  else if pyStrip (c.dialogue.getD []) ≠ [] then normWords (pyStrip (c.dialogue.getD []))
  else []

/-- `srt_escape`: newlines become spaces, then strip. -/
def srt_escape (text : List Char) : List Char :=
  pyStrip (text.map (fun c => if c = '\n' then ' ' else c))

/-- The field arithmetic of `to_srt_timestamp(seconds)`: total milliseconds by
`int(round(seconds * 1000))`, then Python floor-division and remainder into
`(hh, mm, ss, ms)`. -/
def to_srt_parts (seconds : ℚ) : ℤ × ℤ × ℤ × ℤ :=
  let ms0 := pyRound (seconds * 1000)
  let hh := ms0.fdiv 3600000
  let ms1 := ms0.fmod 3600000
  let mm := ms1.fdiv 60000
  let ms2 := ms1.fmod 60000
  let ss := ms2.fdiv 1000
  let ms3 := ms2.fmod 1000
  (hh, mm, ss, ms3)

/-- `f"{n:02d}"` for the nonnegative field values. -/
def pad2 (n : ℤ) : List Char :=
  let ds := Nat.toDigits 10 n.toNat
  if ds.length < 2 then '0' :: ds else ds

/-- `f"{n:03d}"` for the nonnegative field values. -/
def pad3 (n : ℤ) : List Char :=
  let ds := Nat.toDigits 10 n.toNat
  if ds.length < 2 then '0' :: '0' :: ds else if ds.length < 3 then '0' :: ds else ds

/-- `to_srt_timestamp(seconds)`: the rendered `HH:MM:SS,mmm` text. -/
def to_srt_timestamp (seconds : ℚ) : List Char :=
  pad2 (to_srt_parts seconds).1 ++ ':' ::
    (pad2 (to_srt_parts seconds).2.1 ++ ':' ::
      (pad2 (to_srt_parts seconds).2.2.1 ++ ',' :: pad3 (to_srt_parts seconds).2.2.2))

/-- Modelled from the spec: the repository contains no subtitle parser, so the
spec's "parsing the exchange-format timestamp back to milliseconds" is the
evident recombination `((hh*60 + mm)*60 + ss)*1000 + ms` of the four rendered
fields. -/
def srt_parts_to_ms (p : ℤ × ℤ × ℤ × ℤ) : ℤ :=
  ((p.1 * 60 + p.2.1) * 60 + p.2.2.1) * 1000 + p.2.2.2

/-- The `ValueError`s raised by the two invariant validators, one constructor
per `raise` site, carrying the 0-based clip position the message names. -/
inductive PlanError where
  | wrongCount : PlanError
  | badIndex (pos : ℕ) : PlanError
  | badDuration (pos : ℕ) : PlanError
  | badSpan (pos : ℕ) : PlanError
  | timeOrder (pos : ℕ) : PlanError
  | timeOverlap (pos : ℕ) : PlanError
  | modeNeedsDialogue (pos : ℕ) : PlanError
  | modeNeedsVerse (pos : ℕ) : PlanError
  | modeNeedsBoth (pos : ℕ) : PlanError
deriving DecidableEq

/-- A schema-valid v1 clip, restricted to the fields the v1 invariant
validator (`validators/json_validate.py`) reads. -/
structure ClipV1 where
  index : ℤ
  start_sec : ℚ
  end_sec : ℚ
deriving DecidableEq

/-- The per-clip loop of the v1 `parse_and_validate`: 1-based counter `k`;
checks index, then `abs(dur - 10) > 1e-6`, then the exact span
`[(k-1)*10, k*10)`. -/
def validateClipsV1 : List ClipV1 → ℕ → Except PlanError Unit
  | [], _ => .ok ()
  | c :: rest, k =>
      if c.index ≠ (k : ℤ) then .error (.badIndex (k - 1))
      else if 1/1000000 < |c.end_sec - c.start_sec - 10| then .error (.badDuration (k - 1))
      else if c.start_sec ≠ ((k : ℚ) - 1) * 10 ∨ c.end_sec ≠ (k : ℚ) * 10 then
        .error (.badSpan (k - 1))
      else validateClipsV1 rest (k + 1)

/-- The invariant part of v1 `parse_and_validate`: exactly 6 clips, then the
per-clip loop; on success the parsed data is returned unchanged. -/
def validateV1 (clips : List ClipV1) : Except PlanError (List ClipV1) :=
  if clips.length ≠ 6 then .error .wrongCount
  else
    match validateClipsV1 clips 1 with
    | .error e => .error e
    | .ok _ => .ok clips

/-- A schema-valid v2 clip, restricted to the fields the v2 invariant
validator (`packages/generator/generator/validators/json_validate.py`) reads.
`verse = none` models an absent or falsy `verse` value. -/
structure ClipV2 where
  index : ℤ
  start_sec : ℚ
  end_sec : ℚ
  mode : List Char
  dialogue_text : Option (List Char) := none
  verse : Option Verse := none
deriving DecidableEq

/-- The length of the "speech" string of the v2 validator's short-text
heuristic: `dialogue_text or ""`, prefixed by `verse.text + " "` and stripped
when a verse is present. -/
def speechLen (c : ClipV2) : ℕ :=
  match c.verse with
  | some v => (pyStrip (v.text ++ ' ' :: (c.dialogue_text.getD []))).length
  | none => (c.dialogue_text.getD []).length

/-- The per-clip loop of the v2 `parse_and_validate`: 1-based counter `k`,
running previous end time (initially `-1.0`); checks index, `end > start`,
`start >= prev_end`, then mode/field consistency; collects (instead of
printing) the short-speech warnings as `(0-based position, length)` pairs. -/
def validateClipsV2 : List ClipV2 → ℕ → ℚ → Except PlanError (List (ℕ × ℕ))
  | [], _, _ => .ok []
  | c :: rest, k, prev_end =>
      if c.index ≠ (k : ℤ) then .error (.badIndex (k - 1))
      else if ¬ c.start_sec < c.end_sec then .error (.timeOrder (k - 1))
      else if c.start_sec < prev_end then .error (.timeOverlap (k - 1))
      else if c.mode = "dialogue".data ∧ c.dialogue_text.getD [] = [] then
        .error (.modeNeedsDialogue (k - 1))
      else if c.mode = "verse".data ∧ c.verse = none then .error (.modeNeedsVerse (k - 1))
      else if c.mode = "both".data ∧ ¬ (c.verse ≠ none ∧ c.dialogue_text.getD [] ≠ []) then
        .error (.modeNeedsBoth (k - 1))
      else
        match validateClipsV2 rest (k + 1) c.end_sec with
        | .error e => .error e
        | .ok warns =>
            .ok (if speechLen c < 90 then (k - 1, speechLen c) :: warns else warns)

/-- The invariant part of v2 `parse_and_validate`: the per-clip loop from
counter 1 and `prev_end = -1.0`; on success the parsed data is returned
unchanged, paired with the collected warnings. -/
def validateV2 (clips : List ClipV2) : Except PlanError (List ClipV2 × List (ℕ × ℕ)) :=
  match validateClipsV2 clips 1 (-1) with
  | .error e => .error e
  | .ok warns => .ok (clips, warns)

/-- One line of the SRT bookkeeping of the lead/trail-pad composer:
`(idx, start, end, text)` as appended to `segments_for_srt`. -/
structure SrtSeg where
  idx : ℤ
  start_sec : ℚ
  end_sec : ℚ
  text : List Char
deriving DecidableEq

/-- The fatal exits of `build_video`, as structured errors. -/
inductive ComposeError where
  | noClips : ComposeError
  | missingImage (idx : ℤ) : ComposeError
deriving DecidableEq

/-- The clip loop of the lead/trail-pad `build_video`: per clip, fail if the
image is missing, else pad the audio, emit the SRT segment at the running
cursor `t` and advance the cursor by the segment duration. -/
def buildSegsPadded (img : ℤ → Bool) (aud : ℤ → Option AudioFileInfo)
    (lead trail min_dur : ℚ) : List Clip → ℚ → Except ComposeError (List SrtSeg)
  | [], _ => .ok []
  | c :: rest, t =>
      if img c.index then
        let pa := build_padded_audio (aud c.index) lead trail min_dur
        match buildSegsPadded img aud lead trail min_dur rest (t + pa.2) with
        | .error e => .error e
        | .ok segs => .ok (⟨c.index, t, t + pa.2, clip_text_for_caption c⟩ :: segs)
      else .error (.missingImage c.index)

/-- `build_video` of `packages/generator/generator/video_compose.py`
(lead/trail-pad policy), up to the SRT segment list: empty plans are rejected,
then the clip loop runs with the cumulative cursor starting at 0. -/
def build_video_padded (img : ℤ → Bool) (aud : ℤ → Option AudioFileInfo)
    (lead trail min_dur : ℚ) (clips : List Clip) : Except ComposeError (List SrtSeg) :=
  if clips.isEmpty then .error .noClips
  else buildSegsPadded img aud lead trail min_dur clips 0

/-- `get_clip_times(clip, default_index)` of the slot-fit composer: plan times
when both keys exist, else the v1 10-second slots derived from the index. -/
def get_clip_times (c : Clip) (default_index : ℤ) : ℚ × ℚ :=
  match c.start_sec, c.end_sec with
  | some s, some e => (s, e)
  | _, _ => (((default_index : ℚ) - 1) * 10, (default_index : ℚ) * 10)

/-- `fit_audio_to_slot(wav_path, slot_dur)`: trim to the slot when the audio is
longer, right-pad with silence when shorter, pure `DEFAULT_SR` mono silence
when the file is missing. -/
def fit_audio_to_slot (wav : Option AudioFileInfo) (slot_dur : ℚ) : AudioClip :=
  match wav with
  | some a =>
      if slot_dur < a.duration then
        .subclipOf (.fileClip a.duration a.fps a.nchannels) 0 slot_dur
      else if a.duration < slot_dur then
        .concat2 (.fileClip a.duration a.fps a.nchannels)
          (make_silence_array (slot_dur - a.duration) a.fps a.nchannels)
      else .fileClip a.duration a.fps a.nchannels
  | none => make_silence_array slot_dur DEFAULT_SR 1

/-- One video segment of the slot-fit `build_video`: the image is shown for
`duration` with `audioTrack` attached. -/
structure VideoSeg where
  idx : ℤ
  duration : ℚ
  audioTrack : AudioClip
deriving DecidableEq

/-- The clip loop of the slot-fit `build_video`: per clip, fail if the image is
missing, clamp the planned slot to at least 0.01 s, fit the audio to the slot,
and extend the image to the audio when the fitted audio is longer. -/
def buildSegsSlot (img : ℤ → Bool) (aud : ℤ → Option AudioFileInfo) :
    List Clip → Except ComposeError (List VideoSeg)
  | [] => .ok []
  | c :: rest =>
      if img c.index then
        let ts := get_clip_times c c.index
        let slot_dur := max (1/100) (ts.2 - ts.1)
        let a := fit_audio_to_slot (aud c.index) slot_dur
        match buildSegsSlot img aud rest with
        | .error e => .error e
        | .ok segs => .ok (⟨c.index, max slot_dur a.duration, a⟩ :: segs)
      else .error (.missingImage c.index)

/-- `build_video` of `video_compose.py` (slot-fit policy), up to the video
segment list: empty plans are rejected, then the clip loop runs. -/
def build_video_slotfit (img : ℤ → Bool) (aud : ℤ → Option AudioFileInfo)
    (clips : List Clip) : Except ComposeError (List VideoSeg) :=
  if clips.isEmpty then .error .noClips
  else buildSegsSlot img aud clips

/-- The cumulative-timeline shape of an SRT segment list: the first segment
starts at `t` and each segment starts where the previous one ends. -/
def chainedFrom : ℚ → List SrtSeg → Prop
  | _, [] => True
  | t, s :: rest => s.start_sec = t ∧ chainedFrom s.end_sec rest

/-- Spec wording (claim C4): 1-based contiguous clip indices. -/
def spec_indices_ok_v1 (cl : List ClipV1) : Prop :=
  ∀ (i : ℕ) (h : i < cl.length), (cl.get ⟨i, h⟩).index = (i : ℤ) + 1

/-- Spec wording (claim C4): monotonic, non-overlapping timing for v1 plans
(`end > start` per clip, adjacency allowed between consecutive clips). -/
def spec_timing_ok_v1 (cl : List ClipV1) : Prop :=
  (∀ (i : ℕ) (h : i < cl.length), (cl.get ⟨i, h⟩).start_sec < (cl.get ⟨i, h⟩).end_sec) ∧
  (∀ (i : ℕ) (h : i + 1 < cl.length),
    (cl.get ⟨i, Nat.lt_of_succ_lt h⟩).end_sec ≤ (cl.get ⟨i + 1, h⟩).start_sec)

/-- Spec wording (claim C4): every v1 clip lasts 10 seconds (up to the
validator's own `1e-6` tolerance). -/
def spec_duration_ok_v1 (cl : List ClipV1) : Prop :=
  ∀ (i : ℕ) (h : i < cl.length),
    |(cl.get ⟨i, h⟩).end_sec - (cl.get ⟨i, h⟩).start_sec - 10| ≤ 1/1000000

/-- The v1 validator's exact-span rule (not in the claim's list): clip at
0-based position `i` spans exactly `[i*10, (i+1)*10)`. -/
def spec_span_ok_v1 (cl : List ClipV1) : Prop :=
  ∀ (i : ℕ) (h : i < cl.length),
    (cl.get ⟨i, h⟩).start_sec = (i : ℚ) * 10 ∧ (cl.get ⟨i, h⟩).end_sec = ((i : ℚ) + 1) * 10

/-- Spec wording (claim C4): 1-based contiguous clip indices, v2 plans. -/
def spec_indices_ok_v2 (cl : List ClipV2) : Prop :=
  ∀ (i : ℕ) (h : i < cl.length), (cl.get ⟨i, h⟩).index = (i : ℤ) + 1

/-- Spec wording (claim C4): `end_sec > start_sec` for every v2 clip. -/
def spec_order_ok_v2 (cl : List ClipV2) : Prop :=
  ∀ (i : ℕ) (h : i < cl.length), (cl.get ⟨i, h⟩).start_sec < (cl.get ⟨i, h⟩).end_sec

/-- Spec wording (claim C4): consecutive v2 clips do not overlap. -/
def spec_overlap_ok_v2 (cl : List ClipV2) : Prop :=
  ∀ (i : ℕ) (h : i + 1 < cl.length),
    (cl.get ⟨i, Nat.lt_of_succ_lt h⟩).end_sec ≤ (cl.get ⟨i + 1, h⟩).start_sec

/-- The v2 validator's initial `prev_end = -1.0` sentinel: the first clip may
not start before `-1`. -/
def spec_head_ok_v2 (cl : List ClipV2) : Prop :=
  ∀ (h0 : 0 < cl.length), -1 ≤ (cl.get ⟨0, h0⟩).start_sec

/-- Spec wording (claim C4): mode/field consistency of a v2 clip. -/
def spec_mode_ok_v2 (c : ClipV2) : Prop :=
  (c.mode = "dialogue".data → c.dialogue_text.getD [] ≠ []) ∧
  (c.mode = "verse".data → c.verse ≠ none) ∧
  (c.mode = "both".data → c.verse ≠ none ∧ c.dialogue_text.getD [] ≠ [])

/-- The conjunction of checks the v1 per-clip loop performs at 1-based
position `m`; used to state what `validateClipsV1` accepts. -/
def v1_clip_ok (c : ClipV1) (m : ℕ) : Prop :=
  c.index = (m : ℤ) ∧ |c.end_sec - c.start_sec - 10| ≤ 1/1000000 ∧
    c.start_sec = ((m : ℚ) - 1) * 10 ∧ c.end_sec = (m : ℚ) * 10

/-- The per-clip (non-chain) checks of the v2 loop at 1-based position `m`;
used to state what `validateClipsV2` accepts. -/
def v2_clip_ok (c : ClipV2) (m : ℕ) : Prop :=
  c.index = (m : ℤ) ∧ c.start_sec < c.end_sec ∧ spec_mode_ok_v2 c

/-- Spec wording (claim C7): a plan is (as a whole) v2 when any of its clips
carries a `dialogue_text` or `verse` field. -/
def spec_plan_is_v2 (clips : List Clip) : Prop :=
  ∃ c ∈ clips, c.dialogue_text.isSome ∨ c.verse.isSome

/-- Spec wording (claim C7): the v2 spoken-text rule, applied to a clip
unconditionally (what the claim predicts for every clip of a v2 plan). -/
def spec_spoken_v2_rule (c : Clip) : List Char :=
  normWords (joinSpace (clip_speech_v2_parts c))

/-! ### Helper lemmas -/

theorem pyRound_intCast (n : ℤ) : pyRound (n : ℚ) = n := by
  simp [pyRound]

theorem pyRound_natCast (n : ℕ) : pyRound (n : ℚ) = n := by
  have := pyRound_intCast (n : ℤ)
  simpa using this

theorem silence_samples_cast (n fps : ℕ) (hfps : 0 < fps) :
    silence_samples ((n : ℚ) / (fps : ℚ)) fps = max 1 n := by
  unfold silence_samples
  rw [div_mul_cancel₀ _ (by exact_mod_cast hfps.ne' : (fps : ℚ) ≠ 0), pyRound_natCast]
  omega

/-- Claim C8: for every non-negative number of seconds, rendering it as an
exchange-format timestamp (round once to the nearest millisecond, decompose
into HH:MM:SS,mmm) and parsing that timestamp back recovers exactly the
rounded millisecond value. -/
theorem srt_timestamp_roundtrip (seconds : ℚ) (h : 0 ≤ seconds) :
    srt_parts_to_ms (to_srt_parts seconds) = pyRound (seconds * 1000) := by
  unfold to_srt_parts srt_parts_to_ms
  generalize pyRound (seconds * 1000) = ms
  have h1 := Int.fdiv_add_fmod ms 3600000
  have h2 := Int.fdiv_add_fmod (ms.fmod 3600000) 60000
  have h3 := Int.fdiv_add_fmod ((ms.fmod 3600000).fmod 60000) 1000
  simp only []
  omega

/-- Witness for C8 at 3661.5 seconds. -/
theorem srt_timestamp_roundtrip_witness :
    (0 : ℚ) ≤ 7323/2 ∧
      srt_parts_to_ms (to_srt_parts (7323/2)) = pyRound ((7323/2) * 1000) :=
  ⟨by norm_num, srt_timestamp_roundtrip (7323/2) (by norm_num)⟩

/-- Counterexample to claim C2 as stated: audio of 1 s at 24000 Hz, lead
0.00001 s, trail 0 s.  The lead silence is quantized to one whole sample
(1/24000 s), so the returned segment duration is 1 + 1/24000, not
lead + a + trail = 0.00001 + 1 + 0. -/
theorem build_padded_audio_not_exact :
    (build_padded_audio (some ⟨1, 24000, 1⟩) (1/100000) 0 6).2 = 1 + 1/24000 ∧
      (1 : ℚ) + 1/24000 ≠ 1/100000 + 1 + 0 := by
  have h1 : (1 : ℤ).toNat = 1 := rfl
  constructor
  · norm_num [build_padded_audio, make_silence_array, silence_samples,
      AudioClip.duration, pyRound, h1]
  · norm_num

/-- Claim C2 amended: under the lead/trail-pad policy the lead and trail
silences are quantized to whole samples of the audio's rate, so for a clip with
audio the segment duration equals `lead + a + trail` exactly whenever `lead`
and `trail` are whole numbers of samples at that rate (in particular for the
default 1.5 s / 2.0 s at 24000 Hz); for a clip with no audio the duration is
`max(min_segment, lead + trail)` exactly and the clip is synthesized silence,
with no error raised. -/
theorem build_padded_audio_amended (info : AudioFileInfo) (lead trail min_dur : ℚ)
    (hfps : 0 < info.fps) :
    (∀ nl nt : ℕ, lead = (nl : ℚ) / (info.fps : ℚ) → trail = (nt : ℚ) / (info.fps : ℚ) →
        (build_padded_audio (some info) lead trail min_dur).2
          = lead + info.duration + trail) ∧
    (build_padded_audio none lead trail min_dur).2 = max min_dur (lead + trail) ∧
    (build_padded_audio none lead trail min_dur).1
      = make_silence_array (max min_dur (lead + trail)) DEFAULT_SR 1 := by
  refine ⟨?_, rfl, rfl⟩
  intro nl nt hl ht
  have hfq : (0 : ℚ) < (info.fps : ℚ) := by exact_mod_cast hfps
  unfold build_padded_audio
  split_ifs with hlead htrail htrail
  · -- lead > 0, trail > 0
    have hnl : 1 ≤ nl := by
      rcases Nat.eq_zero_or_pos nl with h0 | h1
      · rw [h0] at hl; simp at hl; rw [hl] at hlead; exact absurd hlead (lt_irrefl 0)
      · exact h1
    have hnt : 1 ≤ nt := by
      rcases Nat.eq_zero_or_pos nt with h0 | h1
      · rw [h0] at ht; simp at ht; rw [ht] at htrail; exact absurd htrail (lt_irrefl 0)
      · exact h1
    simp only [AudioClip.duration]
    rw [hl, ht, silence_samples_cast nl info.fps hfps, silence_samples_cast nt info.fps hfps,
      Nat.max_eq_right hnl, Nat.max_eq_right hnt]
  · -- lead > 0, trail = 0
    have hnl : 1 ≤ nl := by
      rcases Nat.eq_zero_or_pos nl with h0 | h1
      · rw [h0] at hl; simp at hl; rw [hl] at hlead; exact absurd hlead (lt_irrefl 0)
      · exact h1
    have ht0 : trail = 0 := by
      have : 0 ≤ trail := by rw [ht]; positivity
      linarith [not_lt.mp htrail]
    simp only [AudioClip.duration]
    rw [hl, silence_samples_cast nl info.fps hfps, Nat.max_eq_right hnl, ht0]
    ring
  · -- lead = 0, trail > 0
    have hnt : 1 ≤ nt := by
      rcases Nat.eq_zero_or_pos nt with h0 | h1
      · rw [h0] at ht; simp at ht; rw [ht] at htrail; exact absurd htrail (lt_irrefl 0)
      · exact h1
    have hl0 : lead = 0 := by
      have : 0 ≤ lead := by rw [hl]; positivity
      linarith [not_lt.mp hlead]
    simp only [AudioClip.duration]
    rw [ht, silence_samples_cast nt info.fps hfps, Nat.max_eq_right hnt, hl0]
    ring
  · -- lead = 0, trail = 0
    have hl0 : lead = 0 := by
      have : 0 ≤ lead := by rw [hl]; positivity
      linarith [not_lt.mp hlead]
    have ht0 : trail = 0 := by
      have : 0 ≤ trail := by rw [ht]; positivity
      linarith [not_lt.mp htrail]
    simp only [AudioClip.duration]
    rw [hl0, ht0]
    ring

/-- Witness for the amended C2 at the script defaults: lead 1.5 s, trail 2 s,
audio of 4 s at 24000 Hz gives a segment of exactly 7.5 s; a clip with no
audio gives `max(6, 3.5) = 6` s of silence. -/
theorem build_padded_audio_amended_witness :
    (build_padded_audio (some ⟨4, 24000, 1⟩) (3/2) 2 6).2 = 3/2 + 4 + 2 ∧
      (build_padded_audio none (3/2) 2 6).2 = max 6 (3/2 + 2) :=
  ⟨(build_padded_audio_amended ⟨4, 24000, 1⟩ (3/2) 2 6 (by norm_num)).1 36000 48000
      (by norm_num) (by norm_num),
    (build_padded_audio_amended ⟨4, 24000, 1⟩ (3/2) 2 6 (by norm_num)).2.1⟩

/-- Counterexample to claim C3 as stated: slot `D = 1.00001` s, audio of 1 s at
24000 Hz.  The padding silence `D - a = 0.00001` s is quantized to one whole
sample, so the fitted audio lasts `1 + 1/24000` s and the composed segment
(image extended to the audio) also lasts `1 + 1/24000 ≠ D`. -/
theorem fit_audio_to_slot_not_exact :
    build_video_slotfit (fun _ => true) (fun _ => some ⟨1, 24000, 1⟩)
        [{ index := 1, start_sec := some 0, end_sec := some (100001/100000) }]
      = .ok [⟨1, 1 + 1/24000,
          .concat2 (.fileClip 1 24000 1) (.arrayClip 1 24000 1)⟩] ∧
      (1 : ℚ) + 1/24000 ≠ 100001/100000 := by
  have h1 : (1 : ℤ).toNat = 1 := rfl
  constructor
  · norm_num [build_video_slotfit, buildSegsSlot, get_clip_times, fit_audio_to_slot,
      make_silence_array, silence_samples, AudioClip.duration, pyRound, h1]
  · norm_num

/-- Claim C3 amended: under the slot-fit policy, audio longer than the slot is
trimmed to exactly the first `D` seconds, and equal-length audio is used as is
(total duration exactly `D` in both cases).  Audio shorter than the slot is
right-padded with silence quantized to whole samples, so the total is exactly
`D` whenever `D - a` is a whole number of samples at the audio's rate;
likewise a missing file yields a full-slot mono silence of exactly `D` seconds
whenever `D` is a whole number of samples at `DEFAULT_SR`. -/
theorem fit_audio_to_slot_amended (info : AudioFileInfo) (D : ℚ) (hfps : 0 < info.fps) :
    (D < info.duration →
      fit_audio_to_slot (some info) D
          = .subclipOf (.fileClip info.duration info.fps info.nchannels) 0 D ∧
        (fit_audio_to_slot (some info) D).duration = D) ∧
    (info.duration = D →
      fit_audio_to_slot (some info) D = .fileClip info.duration info.fps info.nchannels ∧
        (fit_audio_to_slot (some info) D).duration = D) ∧
    (∀ n : ℕ, info.duration < D → D - info.duration = (n : ℚ) / (info.fps : ℚ) →
      fit_audio_to_slot (some info) D
          = .concat2 (.fileClip info.duration info.fps info.nchannels)
              (.arrayClip n info.fps info.nchannels) ∧
        (fit_audio_to_slot (some info) D).duration = D) ∧
    (∀ n : ℕ, 1 ≤ n → D = (n : ℚ) / (DEFAULT_SR : ℚ) →
      fit_audio_to_slot none D = .arrayClip n DEFAULT_SR 1 ∧
        (fit_audio_to_slot none D).duration = D) := by
  refine ⟨?_, ?_, ?_, ?_⟩
  · intro hlt
    have he : fit_audio_to_slot (some info) D
        = .subclipOf (.fileClip info.duration info.fps info.nchannels) 0 D := by
      simp [fit_audio_to_slot, hlt]
    exact ⟨he, by rw [he]; simp [AudioClip.duration]⟩
  · intro heq
    have he : fit_audio_to_slot (some info) D
        = .fileClip info.duration info.fps info.nchannels := by
      simp [fit_audio_to_slot, heq]
    exact ⟨he, by rw [he, AudioClip.duration, heq]⟩
  · intro n hlt hn
    have hnotlt : ¬ D < info.duration := lt_asymm hlt
    have hpos : 1 ≤ n := by
      by_contra hc
      have hn0 : n = 0 := by omega
      rw [hn0] at hn
      simp at hn
      linarith
    have he : fit_audio_to_slot (some info) D
        = .concat2 (.fileClip info.duration info.fps info.nchannels)
            (.arrayClip n info.fps info.nchannels) := by
      simp only [fit_audio_to_slot, if_neg hnotlt, if_pos hlt, make_silence_array,
        hn, silence_samples_cast n info.fps hfps, Nat.max_eq_right hpos]
    refine ⟨he, by rw [he]; simp only [AudioClip.duration]; rw [← hn]; ring⟩
  · intro n hpos hD
    have hsr : 0 < DEFAULT_SR := by norm_num [DEFAULT_SR]
    have he : fit_audio_to_slot none D = .arrayClip n DEFAULT_SR 1 := by
      simp only [fit_audio_to_slot, make_silence_array, hD,
        silence_samples_cast n DEFAULT_SR hsr, Nat.max_eq_right hpos]
    refine ⟨he, by rw [he]; simp only [AudioClip.duration]; rw [hD]⟩

/-- Witness for the amended C3: a 4 s audio clip at 24000 Hz in a fixed 10 s
slot is padded with exactly 144000 samples (6 s) of silence, total exactly
10 s; a missing file in a 10 s slot is 240000 samples of silence, exactly
10 s. -/
theorem fit_audio_to_slot_amended_witness :
    (fit_audio_to_slot (some ⟨4, 24000, 1⟩) 10
        = .concat2 (.fileClip 4 24000 1) (.arrayClip 144000 24000 1) ∧
      (fit_audio_to_slot (some ⟨4, 24000, 1⟩) 10).duration = 10) ∧
    (fit_audio_to_slot none 10 = .arrayClip 240000 DEFAULT_SR 1 ∧
      (fit_audio_to_slot none 10).duration = 10) :=
  ⟨(fit_audio_to_slot_amended ⟨4, 24000, 1⟩ 10 (by norm_num)).2.2.1 144000
      (by norm_num) (by norm_num),
    (fit_audio_to_slot_amended ⟨4, 24000, 1⟩ 10 (by norm_num)).2.2.2 240000
      (by norm_num) (by norm_num [DEFAULT_SR])⟩

/-- Counterexample to claim C6 as stated: for a verse-only clip (no subtitle,
no dialogue), the lead/trail composer's caption is empty while the derived
spoken text is the formatted quotation — the fallback there never consults the
verse. -/
theorem clip_caption_counterexample :
    clip_text_for_caption
        { index := 1, verse := some ⟨"Ps 23:1".data, "The Lord is my shepherd".data⟩ }
      = [] ∧
    clip_spoken_text
        { index := 1, verse := some ⟨"Ps 23:1".data, "The Lord is my shepherd".data⟩ }
      = "The Lord is my shepherd (Ps 23:1).".data ∧
    ([] : List Char) ≠ "The Lord is my shepherd (Ps 23:1).".data := by
  refine ⟨by decide, by decide, by decide⟩

/-- Claim C6 amended: a nonempty explicit subtitle wins in both composers; with
no subtitle the slot-fit composer falls back to the derived spoken text
(quotation, with its reference in parentheses, then the dialogue line,
whitespace-normalized), while the lead/trail composer falls back to the
dialogue text alone — a clip whose speech is only a verse quotation gets an
empty caption there. -/
theorem clip_caption_amended (c : Clip) :
    (∀ sub, c.subtitle = some sub → pyStrip sub ≠ [] →
      clip_subtitle c = normWords (pyStrip sub) ∧
        clip_text_for_caption c = normWords (pyStrip sub)) ∧
    (c.subtitle = none → clip_subtitle c = clip_spoken_text c) ∧
    (∀ v dt, c.verse = some v → v.text ≠ [] → pyStrip v.ref ≠ [] →
      c.dialogue_text = some dt → dt ≠ [] →
      clip_spoken_text c
        = normWords (v.text ++ " (".data ++ pyStrip v.ref ++ ").".data ++ ' ' :: dt)) ∧
    (c.subtitle = none → c.dialogue_text = none → c.dialogue = none →
      clip_text_for_caption c = []) := by
  refine ⟨?_, ?_, ?_, ?_⟩
  · intro sub hs hne
    constructor
    · simp [clip_subtitle, hs, hne]
    · simp [clip_text_for_caption, hs, hne]
  · intro hs
    simp [clip_subtitle, hs]
  · intro v dt hv htext href hdt hdtne
    simp only [clip_spoken_text, clip_speech_v2_parts, hv, htext, href, hdt, hdtne,
      Option.isSome_some, Bool.true_or, if_true, ne_eq, not_false_iff, ite_true,
      joinSpace, List.append_assoc]
  · intro h1 h2 h3
    simp [clip_text_for_caption, h1, h2, h3, pyStrip]

/-- Witness for the amended C6: explicit subtitle override, normalized. -/
theorem clip_caption_amended_witness :
    clip_subtitle
        { index := 1, dialogue_text := some "d".data, subtitle := some "  Hi   there ".data }
      = "Hi there".data ∧
    clip_text_for_caption
        { index := 1, dialogue_text := some "d".data, subtitle := some "  Hi   there ".data }
      = "Hi there".data := by
  have h := (clip_caption_amended
      { index := 1, dialogue_text := some "d".data, subtitle := some "  Hi   there ".data }).1
    "  Hi   there ".data rfl (by decide)
  have he : normWords (pyStrip "  Hi   there ".data) = "Hi there".data := by decide
  exact ⟨he ▸ h.1, he ▸ h.2⟩

/-- Counterexample to claim C7 as stated: in a plan whose first clip carries
`dialogue_text` (so the claim deems the whole plan v2), the second clip has
only the v1 `dialogue` field; the code still derives its spoken text from
`dialogue` (yielding "beta"), not from the v2 rule (which would yield ""). -/
theorem plan_version_counterexample :
    spec_plan_is_v2 [{ index := 1, dialogue_text := some "alpha".data },
        { index := 2, dialogue := some "beta".data }] ∧
    clip_spoken_text { index := 2, dialogue := some "beta".data } = "beta".data ∧
    clip_speech { index := 2, dialogue := some "beta".data } = "beta".data ∧
    spec_spoken_v2_rule { index := 2, dialogue := some "beta".data } = [] ∧
    "beta".data ≠ ([] : List Char) := by
  refine ⟨⟨{ index := 1, dialogue_text := some "alpha".data }, by simp, by simp⟩,
    by decide, by decide, by decide, by decide⟩

/-- Claim C7 amended: plan version is not decided once per plan — each access
re-infers it per clip.  Even inside a plan that carries v2 fields somewhere, a
clip with neither `dialogue_text` nor `verse` is read by the v1 rule (its
`dialogue` field is consulted), and only clips that themselves carry a v2
field use the v2 rule. -/
theorem plan_version_amended (clips : List Clip) (c : Clip) (hc : c ∈ clips)
    (hplan : spec_plan_is_v2 clips) :
    (c.dialogue_text.isSome ∨ c.verse.isSome →
      clip_spoken_text c = spec_spoken_v2_rule c ∧ clip_speech c = spec_spoken_v2_rule c) ∧
    (c.dialogue_text = none → c.verse = none →
      clip_spoken_text c = normWords (c.dialogue.getD []) ∧
        clip_speech c = pyStrip (c.dialogue.getD [])) := by
  constructor
  · intro hv2
    have hb : (c.dialogue_text.isSome || c.verse.isSome) = true := by
      rcases hv2 with h | h <;> simp [h]
    exact ⟨by simp [clip_spoken_text, spec_spoken_v2_rule, hb],
      by simp [clip_speech, spec_spoken_v2_rule, hb]⟩
  · intro h1 h2
    exact ⟨by simp [clip_spoken_text, h1, h2], by simp [clip_speech, h1, h2]⟩

/-- Witness for the amended C7 on the two-clip mixed plan. -/
theorem plan_version_amended_witness :
    clip_spoken_text { index := 2, dialogue := some "beta".data }
        = normWords ("beta".data) ∧
      clip_speech { index := 2, dialogue := some "beta".data } = pyStrip ("beta".data) :=
  (plan_version_amended
      [{ index := 1, dialogue_text := some "alpha".data },
        { index := 2, dialogue := some "beta".data }]
      { index := 2, dialogue := some "beta".data } (by simp)
      ⟨{ index := 1, dialogue_text := some "alpha".data }, by simp, by simp⟩).2 rfl rfl

theorem buildSegsSlot_min_duration (img : ℤ → Bool) (aud : ℤ → Option AudioFileInfo) :
    ∀ (clips : List Clip) (segs : List VideoSeg),
      buildSegsSlot img aud clips = .ok segs → ∀ s ∈ segs, (1 : ℚ)/100 ≤ s.duration := by
  intro clips
  induction clips with
  | nil =>
      intro segs h s hs
      simp only [buildSegsSlot, Except.ok.injEq] at h
      subst h
      simp at hs
  | cons c rest ih =>
      intro segs h s hs
      by_cases himg : img c.index
      · cases hrec : buildSegsSlot img aud rest with
        | error e =>
            rw [buildSegsSlot, if_pos himg, hrec] at h
            simp at h
        | ok segs2 =>
            rw [buildSegsSlot, if_pos himg, hrec] at h
            simp only [Except.ok.injEq] at h
            subst h
            rcases List.mem_cons.mp hs with hseg | hmem
            · subst hseg
              exact le_trans (le_max_left _ _) (le_max_left _ _)
            · exact ih segs2 hrec s hmem
      · rw [buildSegsSlot, if_neg himg] at h
        simp at h

/-- Claim C10: every segment composed by the slot-fit composer lasts at least
the 0.01-second clamp (hence strictly positive), whatever the planned times and
audio state; and every synthesized silence clip has at least one sample,
whatever duration was requested. -/
theorem composed_segments_positive :
    (∀ (img : ℤ → Bool) (aud : ℤ → Option AudioFileInfo) (clips : List Clip)
        (segs : List VideoSeg), build_video_slotfit img aud clips = .ok segs →
        ∀ s ∈ segs, (1 : ℚ)/100 ≤ s.duration ∧ 0 < s.duration) ∧
    (∀ (d : ℚ) (fps : ℕ), 1 ≤ silence_samples d fps) := by
  constructor
  · intro img aud clips segs h s hs
    have hmain : buildSegsSlot img aud clips = .ok segs := by
      rw [build_video_slotfit] at h
      by_cases hemp : clips.isEmpty
      · rw [if_pos hemp] at h; simp at h
      · rwa [if_neg hemp] at h
    have := buildSegsSlot_min_duration img aud clips segs hmain s hs
    exact ⟨this, lt_of_lt_of_le (by norm_num) this⟩
  · intro d fps
    have h1 : (1 : ℤ) ≤ max 1 (pyRound (d * (fps : ℚ))) := le_max_left _ _
    simp only [silence_samples]
    omega

/-- Witness for C10: a degenerate clip whose planned slot is empty
(`end_sec = start_sec`) and that has no audio still yields a segment of
duration `max(0.01, 0) = 0.01 > 0`. -/
theorem composed_segments_positive_witness :
    build_video_slotfit (fun _ => true) (fun _ => none)
        [{ index := 1, start_sec := some 3, end_sec := some 3 }]
      = .ok [⟨1, 1/100, .arrayClip 240 24000 1⟩] ∧
    ((1 : ℚ)/100 ≤ 1/100 ∧ (0 : ℚ) < 1/100) ∧ 1 ≤ silence_samples 0 24000 := by
  have heval : build_video_slotfit (fun _ => true) (fun _ => none)
      [{ index := 1, start_sec := some 3, end_sec := some 3 }]
      = .ok [⟨1, 1/100, .arrayClip 240 24000 1⟩] := by
    have h240 : (240 : ℤ).toNat = 240 := rfl
    norm_num [build_video_slotfit, buildSegsSlot, get_clip_times, fit_audio_to_slot,
      make_silence_array, silence_samples, AudioClip.duration, pyRound, DEFAULT_SR, h240]
  refine ⟨heval, ?_, composed_segments_positive.2 0 24000⟩
  exact composed_segments_positive.1 (fun _ => true) (fun _ => none)
    [{ index := 1, start_sec := some 3, end_sec := some 3 }]
    [⟨1, 1/100, .arrayClip 240 24000 1⟩] heval ⟨1, 1/100, .arrayClip 240 24000 1⟩
    (by simp)

theorem buildSegsPadded_missing (img : ℤ → Bool) (aud : ℤ → Option AudioFileInfo)
    (lead trail min_dur : ℚ) :
    ∀ (pre : List Clip) (c : Clip) (rest : List Clip) (t : ℚ),
      (∀ p ∈ pre, img p.index = true) → img c.index = false →
      buildSegsPadded img aud lead trail min_dur (pre ++ c :: rest) t
        = .error (.missingImage c.index) := by
  intro pre
  induction pre with
  | nil =>
      intro c rest t hpre hc
      simp [buildSegsPadded, hc]
  | cons p pre ih =>
      intro c rest t hpre hc
      have hp : img p.index = true := hpre p (by simp)
      rw [List.cons_append, buildSegsPadded, if_pos hp]
      dsimp only
      rw [ih c rest _ (fun q hq => hpre q (by simp [hq])) hc]

theorem buildSegsSlot_missing (img : ℤ → Bool) (aud : ℤ → Option AudioFileInfo) :
    ∀ (pre : List Clip) (c : Clip) (rest : List Clip),
      (∀ p ∈ pre, img p.index = true) → img c.index = false →
      buildSegsSlot img aud (pre ++ c :: rest) = .error (.missingImage c.index) := by
  intro pre
  induction pre with
  | nil =>
      intro c rest hpre hc
      simp [buildSegsSlot, hc]
  | cons p pre ih =>
      intro c rest hpre hc
      have hp : img p.index = true := hpre p (by simp)
      rw [List.cons_append, buildSegsSlot, if_pos hp]
      dsimp only
      rw [ih c rest (fun q hq => hpre q (by simp [hq])) hc]

/-- Claim C5: if the first clip without an image is reached, both composers
abort with the structured missing-image error naming that clip's index — for
any audio resolver whatsoever — and, the result being an error, no segment
list is produced at all. -/
theorem missing_image_fatal (img : ℤ → Bool) (aud : ℤ → Option AudioFileInfo)
    (lead trail min_dur : ℚ) (pre : List Clip) (c : Clip) (rest : List Clip)
    (hpre : ∀ p ∈ pre, img p.index = true) (hc : img c.index = false) :
    build_video_padded img aud lead trail min_dur (pre ++ c :: rest)
        = .error (.missingImage c.index) ∧
    build_video_slotfit img aud (pre ++ c :: rest) = .error (.missingImage c.index) ∧
    ∀ segs, build_video_padded img aud lead trail min_dur (pre ++ c :: rest) ≠ .ok segs := by
  have hne : (pre ++ c :: rest).isEmpty = false := by simp
  have h1 : build_video_padded img aud lead trail min_dur (pre ++ c :: rest)
      = .error (.missingImage c.index) := by
    rw [build_video_padded, hne]
    simp only [Bool.false_eq_true, if_false]
    exact buildSegsPadded_missing img aud lead trail min_dur pre c rest 0 hpre hc
  refine ⟨h1, ?_, ?_⟩
  · rw [build_video_slotfit, hne]
    simp only [Bool.false_eq_true, if_false]
    exact buildSegsSlot_missing img aud pre c rest hpre hc
  · intro segs hcontra
    rw [h1] at hcontra
    exact Except.noConfusion hcontra

/-- Witness for C5: clip 2 has no image (but does have audio); both composers
fail with the error naming clip 2. -/
theorem missing_image_fatal_witness :
    build_video_padded (fun i => decide (i ≠ 2)) (fun _ => some ⟨4, 24000, 1⟩) (3/2) 2 6
        ([{ index := 1 }] ++ { index := 2 } :: [])
      = .error (.missingImage ({ index := 2 } : Clip).index) ∧
    build_video_slotfit (fun i => decide (i ≠ 2)) (fun _ => some ⟨4, 24000, 1⟩)
        ([{ index := 1 }] ++ { index := 2 } :: [])
      = .error (.missingImage ({ index := 2 } : Clip).index) :=
  ⟨(missing_image_fatal (fun i => decide (i ≠ 2)) (fun _ => some ⟨4, 24000, 1⟩) (3/2) 2 6
      [{ index := 1 }] { index := 2 } [] (by decide) (by decide)).1,
    (missing_image_fatal (fun i => decide (i ≠ 2)) (fun _ => some ⟨4, 24000, 1⟩) (3/2) 2 6
      [{ index := 1 }] { index := 2 } [] (by decide) (by decide)).2.1⟩

/-- Claim C9: both invariant validators return their input unchanged on
success, so validating an already-validated plan succeeds again and yields the
identical plan (and, for v2, the identical warnings). -/
theorem validate_idempotent :
    (∀ (cl out : List ClipV1), validateV1 cl = .ok out →
      out = cl ∧ validateV1 out = .ok out) ∧
    (∀ (cl : List ClipV2) (out : List ClipV2 × List (ℕ × ℕ)),
      validateV2 cl = .ok out → out.1 = cl ∧ validateV2 out.1 = .ok out) := by
  constructor
  · intro cl out h
    rw [validateV1] at h
    by_cases hlen : cl.length ≠ 6
    · rw [if_pos hlen] at h
      exact absurd h (by simp)
    · rw [if_neg hlen] at h
      cases hrec : validateClipsV1 cl 1 with
      | error e =>
          rw [hrec] at h
          exact absurd h (by simp)
      | ok u =>
          rw [hrec] at h
          simp only [Except.ok.injEq] at h
          subst h
          exact ⟨rfl, by rw [validateV1, if_neg hlen, hrec]⟩
  · intro cl out h
    rw [validateV2] at h
    cases hrec : validateClipsV2 cl 1 (-1) with
    | error e =>
        rw [hrec] at h
        exact absurd h (by simp)
    | ok w =>
        rw [hrec] at h
        simp only [Except.ok.injEq] at h
        subst h
        refine ⟨rfl, ?_⟩
        show validateV2 cl = _
        rw [validateV2, hrec]

/-- Witness for C9: a six-clip v1 plan spanning `[0,60)` validates to itself
twice over; a one-clip v2 plan validates to itself (with its short-speech
warning) twice over. -/
theorem validate_idempotent_witness :
    (validateV1 [⟨1, 0, 10⟩, ⟨2, 10, 20⟩, ⟨3, 20, 30⟩, ⟨4, 30, 40⟩, ⟨5, 40, 50⟩, ⟨6, 50, 60⟩]
        = .ok [⟨1, 0, 10⟩, ⟨2, 10, 20⟩, ⟨3, 20, 30⟩, ⟨4, 30, 40⟩, ⟨5, 40, 50⟩, ⟨6, 50, 60⟩] ∧
      validateV1 [⟨1, 0, 10⟩, ⟨2, 10, 20⟩, ⟨3, 20, 30⟩, ⟨4, 30, 40⟩, ⟨5, 40, 50⟩, ⟨6, 50, 60⟩]
        = .ok [⟨1, 0, 10⟩, ⟨2, 10, 20⟩, ⟨3, 20, 30⟩, ⟨4, 30, 40⟩, ⟨5, 40, 50⟩, ⟨6, 50, 60⟩]) ∧
    (validateV2 [⟨1, 0, 10, "dialogue".data, some "hi".data, none⟩]
        = .ok ([⟨1, 0, 10, "dialogue".data, some "hi".data, none⟩], [(0, 2)]) ∧
      validateV2 [⟨1, 0, 10, "dialogue".data, some "hi".data, none⟩]
        = .ok ([⟨1, 0, 10, "dialogue".data, some "hi".data, none⟩], [(0, 2)])) := by
  have h1 : validateV1
      [⟨1, 0, 10⟩, ⟨2, 10, 20⟩, ⟨3, 20, 30⟩, ⟨4, 30, 40⟩, ⟨5, 40, 50⟩, ⟨6, 50, 60⟩]
      = .ok [⟨1, 0, 10⟩, ⟨2, 10, 20⟩, ⟨3, 20, 30⟩, ⟨4, 30, 40⟩, ⟨5, 40, 50⟩, ⟨6, 50, 60⟩] := by
    norm_num [validateV1, validateClipsV1]
  have h2 : validateV2 [⟨1, 0, 10, "dialogue".data, some "hi".data, none⟩]
      = .ok ([⟨1, 0, 10, "dialogue".data, some "hi".data, none⟩], [(0, 2)]) := by
    norm_num [validateV2, validateClipsV2, speechLen]
    simp +decide [pyStrip, isWs]
  exact ⟨⟨h1, (validate_idempotent.1 _ _ h1).2⟩, ⟨h2, (validate_idempotent.2 _ _ h2).2⟩⟩

theorem buildSegsPadded_chained (img : ℤ → Bool) (aud : ℤ → Option AudioFileInfo)
    (lead trail min_dur : ℚ) :
    ∀ (clips : List Clip) (t : ℚ) (segs : List SrtSeg),
      buildSegsPadded img aud lead trail min_dur clips t = .ok segs →
      chainedFrom t segs := by
  intro clips
  induction clips with
  | nil =>
      intro t segs h
      simp only [buildSegsPadded, Except.ok.injEq] at h
      subst h
      trivial
  | cons c rest ih =>
      intro t segs h
      by_cases himg : img c.index
      · cases hrec : buildSegsPadded img aud lead trail min_dur rest
            (t + (build_padded_audio (aud c.index) lead trail min_dur).2) with
        | error e =>
            rw [buildSegsPadded, if_pos himg] at h
            dsimp only at h
            rw [hrec] at h
            exact absurd h (by simp)
        | ok segs2 =>
            rw [buildSegsPadded, if_pos himg] at h
            dsimp only at h
            rw [hrec] at h
            simp only [Except.ok.injEq] at h
            subst h
            exact ⟨rfl, ih _ _ hrec⟩
      · rw [buildSegsPadded, if_neg himg] at h
        exact absurd h (by simp)

theorem chainedFrom_get_start :
    ∀ (segs : List SrtSeg) (t : ℚ), chainedFrom t segs →
      ∀ (i : ℕ) (hi : i < segs.length),
        (segs.get ⟨i, hi⟩).start_sec
          = t + ((segs.take i).map (fun s => s.end_sec - s.start_sec)).sum := by
  intro segs
  induction segs with
  | nil => intro t h i hi; simp at hi
  | cons s rest ih =>
      intro t h i hi
      obtain ⟨hs, hrest⟩ := h
      cases i with
      | zero => simp [hs]
      | succ j =>
          have hj : j < rest.length := Nat.lt_of_succ_lt_succ hi
          have hrec := ih s.end_sec hrest j hj
          simp only [List.get_cons_succ, List.take_succ_cons, List.map_cons, List.sum_cons]
          rw [hrec, hs]
          ring

theorem chainedFrom_contiguous :
    ∀ (segs : List SrtSeg) (t : ℚ), chainedFrom t segs →
      ∀ (i : ℕ) (hi : i + 1 < segs.length),
        (segs.get ⟨i, Nat.lt_of_succ_lt hi⟩).end_sec = (segs.get ⟨i + 1, hi⟩).start_sec := by
  intro segs
  induction segs with
  | nil => intro t h i hi; simp at hi
  | cons s rest ih =>
      intro t h i hi
      obtain ⟨hs, hrest⟩ := h
      cases i with
      | zero =>
          cases rest with
          | nil => simp at hi
          | cons r rest2 =>
              obtain ⟨hr, _⟩ := hrest
              simp [hr]
      | succ j =>
          have hj : j + 1 < rest.length := Nat.lt_of_succ_lt_succ hi
          have := ih s.end_sec hrest j hj
          simpa using this

/-- Claim C1: segments composed by the lead/trail-pad composer form a
cumulative timeline — the first starts at 0, each segment's start equals the
sum of all prior segments' durations, and consecutive segments are contiguous;
concretely, with lead 1.5 s, trail 2 s, minimum 6 s, a clip with 4 s of audio
at 24000 Hz followed by a clip with no audio yields `[0, 7.5)` then
`[7.5, 13.5)`. -/
theorem padded_cumulative_timeline (img : ℤ → Bool) (aud : ℤ → Option AudioFileInfo)
    (lead trail min_dur : ℚ) (clips : List Clip) (segs : List SrtSeg)
    (h : build_video_padded img aud lead trail min_dur clips = .ok segs) :
    (∀ h0 : 0 < segs.length, (segs.get ⟨0, h0⟩).start_sec = 0) ∧
    (∀ (i : ℕ) (hi : i < segs.length),
      (segs.get ⟨i, hi⟩).start_sec
        = ((segs.take i).map (fun s => s.end_sec - s.start_sec)).sum) ∧
    (∀ (i : ℕ) (hi : i + 1 < segs.length),
      (segs.get ⟨i, Nat.lt_of_succ_lt hi⟩).end_sec = (segs.get ⟨i + 1, hi⟩).start_sec) ∧
    build_video_padded (fun _ => true) (fun i => if i = 1 then some ⟨4, 24000, 1⟩ else none)
        (3/2) 2 6
        [⟨1, none, none, none, some "alpha".data, none, none⟩,
          ⟨2, none, none, none, some "beta".data, none, none⟩]
      = .ok [⟨1, 0, 15/2, "alpha".data⟩, ⟨2, 15/2, 27/2, "beta".data⟩] := by
  have hchain : chainedFrom 0 segs := by
    rw [build_video_padded] at h
    by_cases hemp : clips.isEmpty
    · rw [if_pos hemp] at h
      exact absurd h (by simp)
    · rw [if_neg hemp] at h
      exact buildSegsPadded_chained img aud lead trail min_dur clips 0 segs h
  refine ⟨?_, ?_, chainedFrom_contiguous segs 0 hchain, ?_⟩
  · intro h0
    have := chainedFrom_get_start segs 0 hchain 0 h0
    simpa using this
  · intro i hi
    have := chainedFrom_get_start segs 0 hchain i hi
    simpa using this
  · have hpa1 : (build_padded_audio (some ⟨4, 24000, 1⟩) (3/2) 2 6).2 = 15/2 := by
      have h36 : (36000 : ℤ).toNat = 36000 := rfl
      have h48 : (48000 : ℤ).toNat = 48000 := rfl
      norm_num [build_padded_audio, make_silence_array, silence_samples,
        AudioClip.duration, pyRound, h36, h48]
    have hpa2 : (build_padded_audio none (3/2) 2 6).2 = 6 := by
      norm_num [build_padded_audio]
    have hc1 : clip_text_for_caption ⟨1, none, none, none, some "alpha".data, none, none⟩
        = "alpha".data := by decide
    have hc2 : clip_text_for_caption ⟨2, none, none, none, some "beta".data, none, none⟩
        = "beta".data := by decide
    norm_num [build_video_padded, buildSegsPadded, hpa1, hpa2, hc1, hc2]

/-- Witness for C1 on the scenario-C plan itself. -/
theorem padded_cumulative_timeline_witness :
    (∀ h0 : 0 < ([⟨1, 0, 15/2, "alpha".data⟩,
        ⟨2, 15/2, 27/2, "beta".data⟩] : List SrtSeg).length,
      (([⟨1, 0, 15/2, "alpha".data⟩, ⟨2, 15/2, 27/2, "beta".data⟩] : List SrtSeg).get
          ⟨0, h0⟩).start_sec = 0) ∧
    (∀ (i : ℕ) (hi : i + 1 < ([⟨1, 0, 15/2, "alpha".data⟩,
        ⟨2, 15/2, 27/2, "beta".data⟩] : List SrtSeg).length),
      (([⟨1, 0, 15/2, "alpha".data⟩, ⟨2, 15/2, 27/2, "beta".data⟩] : List SrtSeg).get
          ⟨i, Nat.lt_of_succ_lt hi⟩).end_sec
        = (([⟨1, 0, 15/2, "alpha".data⟩, ⟨2, 15/2, 27/2, "beta".data⟩] : List SrtSeg).get
          ⟨i + 1, hi⟩).start_sec) := by
  have heval : build_video_padded (fun _ => true)
      (fun i => if i = 1 then some ⟨4, 24000, 1⟩ else none) (3/2) 2 6
      [⟨1, none, none, none, some "alpha".data, none, none⟩,
        ⟨2, none, none, none, some "beta".data, none, none⟩]
      = .ok [⟨1, 0, 15/2, "alpha".data⟩, ⟨2, 15/2, 27/2, "beta".data⟩] := by
    have hpa1 : (build_padded_audio (some ⟨4, 24000, 1⟩) (3/2) 2 6).2 = 15/2 := by
      have h36 : (36000 : ℤ).toNat = 36000 := rfl
      have h48 : (48000 : ℤ).toNat = 48000 := rfl
      norm_num [build_padded_audio, make_silence_array, silence_samples,
        AudioClip.duration, pyRound, h36, h48]
    have hpa2 : (build_padded_audio none (3/2) 2 6).2 = 6 := by
      norm_num [build_padded_audio]
    have hc1 : clip_text_for_caption ⟨1, none, none, none, some "alpha".data, none, none⟩
        = "alpha".data := by decide
    have hc2 : clip_text_for_caption ⟨2, none, none, none, some "beta".data, none, none⟩
        = "beta".data := by decide
    norm_num [build_video_padded, buildSegsPadded, hpa1, hpa2, hc1, hc2]
  have h := padded_cumulative_timeline (fun _ => true)
    (fun i => if i = 1 then some ⟨4, 24000, 1⟩ else none) (3/2) 2 6
    [⟨1, none, none, none, some "alpha".data, none, none⟩,
      ⟨2, none, none, none, some "beta".data, none, none⟩]
    [⟨1, 0, 15/2, "alpha".data⟩, ⟨2, 15/2, 27/2, "beta".data⟩] heval
  exact ⟨h.1, h.2.2.1⟩

theorem forall_lt_cons {α : Type} (c : α) (l : List α) (P : ℕ → α → Prop) :
    (∀ (i : ℕ) (h : i < (c :: l).length), P i ((c :: l).get ⟨i, h⟩)) ↔
      (P 0 c ∧ ∀ (i : ℕ) (h : i < l.length), P (i + 1) (l.get ⟨i, h⟩)) := by
  constructor
  · intro H
    refine ⟨H 0 (by simp), fun i h => ?_⟩
    have := H (i + 1) (by simpa using Nat.succ_lt_succ h)
    simpa using this
  · rintro ⟨h0, H⟩ i h
    cases i with
    | zero => simpa using h0
    | succ j =>
        have hj : j < l.length := Nat.lt_of_succ_lt_succ h
        simpa using H j hj

theorem consec_cons {α : Type} (c : α) (l : List α) (R : α → α → Prop) :
    (∀ (i : ℕ) (h : i + 1 < (c :: l).length),
        R ((c :: l).get ⟨i, Nat.lt_of_succ_lt h⟩) ((c :: l).get ⟨i + 1, h⟩)) ↔
      ((∀ h0 : 0 < l.length, R c (l.get ⟨0, h0⟩)) ∧
        ∀ (i : ℕ) (h : i + 1 < l.length),
          R (l.get ⟨i, Nat.lt_of_succ_lt h⟩) (l.get ⟨i + 1, h⟩)) := by
  constructor
  · intro H
    constructor
    · intro h0
      have := H 0 (by simpa using Nat.succ_lt_succ h0)
      simpa using this
    · intro i h
      have := H (i + 1) (by simpa using Nat.succ_lt_succ h)
      simpa using this
  · rintro ⟨h0, H⟩ i h
    cases i with
    | zero =>
        have hl : 0 < l.length := Nat.lt_of_succ_lt_succ h
        simpa using h0 hl
    | succ j =>
        have hj : j + 1 < l.length := Nat.lt_of_succ_lt_succ h
        simpa using H j hj

theorem head_cond_cons {α : Type} (c : α) (l : List α) (P : α → Prop) :
    (∀ h0 : 0 < (c :: l).length, P ((c :: l).get ⟨0, h0⟩)) ↔ P c := by
  constructor
  · intro H
    simpa using H (by simp)
  · intro H h0
    simpa using H

theorem validateClipsV1_ok_iff :
    ∀ (cl : List ClipV1) (k : ℕ),
      validateClipsV1 cl k = .ok () ↔
        ∀ (i : ℕ) (h : i < cl.length), v1_clip_ok (cl.get ⟨i, h⟩) (k + i) := by
  intro cl
  induction cl with
  | nil => intro k; simp [validateClipsV1]
  | cons c rest ih =>
      intro k
      have hstep : validateClipsV1 (c :: rest) k = .ok () ↔
          (v1_clip_ok c k ∧ validateClipsV1 rest (k + 1) = .ok ()) := by
        rw [validateClipsV1]
        split_ifs with h1 h2 h3
        · exact iff_of_false (by simp) (fun hr => h1 hr.1.1)
        · exact iff_of_false (by simp) (fun hr => absurd hr.1.2.1 (not_le.mpr h2))
        · rcases h3 with h3a | h3b
          · exact iff_of_false (by simp) (fun hr => h3a hr.1.2.2.1)
          · exact iff_of_false (by simp) (fun hr => h3b hr.1.2.2.2)
        · have e1 : c.index = (k : ℤ) := not_not.mp h1
          have e2 : |c.end_sec - c.start_sec - 10| ≤ 1/1000000 := not_lt.mp h2
          have e3 := not_or.mp h3
          have e3a : c.start_sec = ((k : ℚ) - 1) * 10 := not_not.mp e3.1
          have e3b : c.end_sec = (k : ℚ) * 10 := not_not.mp e3.2
          simp [v1_clip_ok, e1, e2, e3a, e3b]
          intro _
          have hz : (k : ℚ) * 10 - ((k : ℚ) - 1) * 10 - 10 = 0 := by ring
          rw [hz]
          norm_num
      rw [hstep, ih (k + 1), forall_lt_cons c rest (fun i x => v1_clip_ok x (k + i))]
      simp only [Nat.add_zero, Nat.add_succ, Nat.succ_add]

theorem validateClipsV2_ok_iff :
    ∀ (cl : List ClipV2) (k : ℕ) (prev : ℚ),
      (∃ w, validateClipsV2 cl k prev = .ok w) ↔
        ((∀ (i : ℕ) (h : i < cl.length), v2_clip_ok (cl.get ⟨i, h⟩) (k + i)) ∧
          (∀ h0 : 0 < cl.length, prev ≤ (cl.get ⟨0, h0⟩).start_sec) ∧
          (∀ (i : ℕ) (h : i + 1 < cl.length),
            (cl.get ⟨i, Nat.lt_of_succ_lt h⟩).end_sec ≤ (cl.get ⟨i + 1, h⟩).start_sec)) := by
  intro cl
  induction cl with
  | nil => intro k prev; simp [validateClipsV2]
  | cons c rest ih =>
      intro k prev
      have hstep : (∃ w, validateClipsV2 (c :: rest) k prev = .ok w) ↔
          (v2_clip_ok c k ∧ prev ≤ c.start_sec ∧
            ∃ w2, validateClipsV2 rest (k + 1) c.end_sec = .ok w2) := by
        rw [validateClipsV2]
        by_cases h1 : c.index ≠ (k : ℤ)
        · rw [if_pos h1]
          exact iff_of_false (by simp) (fun hr => h1 hr.1.1)
        · rw [if_neg h1]
          by_cases h2 : ¬ c.start_sec < c.end_sec
          · rw [if_pos h2]
            exact iff_of_false (by simp) (fun hr => h2 hr.1.2.1)
          · rw [if_neg h2]
            by_cases h3 : c.start_sec < prev
            · rw [if_pos h3]
              exact iff_of_false (by simp) (fun hr => absurd hr.2.1 (not_le.mpr h3))
            · rw [if_neg h3]
              by_cases h4 : c.mode = "dialogue".data ∧ c.dialogue_text.getD [] = []
              · rw [if_pos h4]
                exact iff_of_false (by simp) (fun hr => (hr.1.2.2.1 h4.1) h4.2)
              · rw [if_neg h4]
                by_cases h5 : c.mode = "verse".data ∧ c.verse = none
                · rw [if_pos h5]
                  exact iff_of_false (by simp) (fun hr => (hr.1.2.2.2.1 h5.1) h5.2)
                · rw [if_neg h5]
                  by_cases h6 : c.mode = "both".data ∧
                      ¬ (c.verse ≠ none ∧ c.dialogue_text.getD [] ≠ [])
                  · rw [if_pos h6]
                    exact iff_of_false (by simp) (fun hr => h6.2 (hr.1.2.2.2.2 h6.1))
                  · rw [if_neg h6]
                    have e1 : c.index = (k : ℤ) := not_not.mp h1
                    have e2 : c.start_sec < c.end_sec := not_not.mp h2
                    have e3 : prev ≤ c.start_sec := not_lt.mp h3
                    have emode : spec_mode_ok_v2 c :=
                      ⟨fun hm hd => h4 ⟨hm, hd⟩, fun hm hv => h5 ⟨hm, hv⟩,
                        fun hm => by
                          by_contra hcon
                          exact h6 ⟨hm, hcon⟩⟩
                    cases hrec : validateClipsV2 rest (k + 1) c.end_sec with
                    | error e => simp [v2_clip_ok]
                    | ok w2 => simp [v2_clip_ok, e1, e2, e3, emode]
      rw [hstep, ih (k + 1) c.end_sec,
        forall_lt_cons c rest (fun i x => v2_clip_ok x (k + i)),
        head_cond_cons c rest (fun x => prev ≤ x.start_sec),
        consec_cons c rest (fun a b => a.end_sec ≤ b.start_sec)]
      simp only [Nat.add_zero, Nat.add_succ, Nat.succ_add]
      tauto

theorem validateClipsV2_warnings :
    ∀ (cl : List ClipV2) (k : ℕ) (prev : ℚ) (w : List (ℕ × ℕ)), 1 ≤ k →
      validateClipsV2 cl k prev = .ok w →
      ∀ (i : ℕ) (h : i < cl.length), speechLen (cl.get ⟨i, h⟩) < 90 →
        (k - 1 + i, speechLen (cl.get ⟨i, h⟩)) ∈ w := by
  intro cl
  induction cl with
  | nil => intro k prev w hk h i hi; simp at hi
  | cons c rest ih =>
      intro k prev w hk h
      rw [validateClipsV2] at h
      by_cases h1 : c.index ≠ (k : ℤ)
      · rw [if_pos h1] at h
        exact absurd h (by simp)
      · rw [if_neg h1] at h
        by_cases h2 : ¬ c.start_sec < c.end_sec
        · rw [if_pos h2] at h
          exact absurd h (by simp)
        · rw [if_neg h2] at h
          by_cases h3 : c.start_sec < prev
          · rw [if_pos h3] at h
            exact absurd h (by simp)
          · rw [if_neg h3] at h
            by_cases h4 : c.mode = "dialogue".data ∧ c.dialogue_text.getD [] = []
            · rw [if_pos h4] at h
              exact absurd h (by simp)
            · rw [if_neg h4] at h
              by_cases h5 : c.mode = "verse".data ∧ c.verse = none
              · rw [if_pos h5] at h
                exact absurd h (by simp)
              · rw [if_neg h5] at h
                by_cases h6 : c.mode = "both".data ∧
                    ¬ (c.verse ≠ none ∧ c.dialogue_text.getD [] ≠ [])
                · rw [if_pos h6] at h
                  exact absurd h (by simp)
                · rw [if_neg h6] at h
                  cases hrec : validateClipsV2 rest (k + 1) c.end_sec with
                  | error e =>
                      rw [hrec] at h
                      exact absurd h (by simp)
                  | ok w2 =>
                      rw [hrec] at h
                      simp only [Except.ok.injEq] at h
                      subst h
                      intro i hi hshort
                      cases i with
                      | zero =>
                          have hg : (c :: rest).get ⟨0, hi⟩ = c := rfl
                          rw [hg] at hshort ⊢
                          rw [if_pos hshort]
                          simpa using List.mem_cons_self _ _
                      | succ j =>
                          have hj : j < rest.length := Nat.lt_of_succ_lt_succ hi
                          have hg : (c :: rest).get ⟨j + 1, hi⟩ = rest.get ⟨j, hj⟩ := rfl
                          rw [hg] at hshort ⊢
                          have hmem := ih (k + 1) c.end_sec w2 (by omega) hrec j hj hshort
                          have harith : k - 1 + (j + 1) = k + 1 - 1 + j := by omega
                          rw [harith]
                          by_cases hcw : speechLen c < 90
                          · rw [if_pos hcw]
                            exact List.mem_cons_of_mem _ hmem
                          · rw [if_neg hcw]
                            exact hmem

/-- Counterexample to claim C4 as stated: six contiguous clips of exactly 10 s
each starting at t = 5 (spans `[5,15) ... [55,65)`).  Indices are contiguous,
timing is monotonic and non-overlapping, the count is 6, and every duration is
exactly 10 s — none of the claim's error conditions holds — yet the v1
validator rejects the plan, because it additionally demands the absolute spans
`[(i-1)*10, i*10)`. -/
theorem validator_iff_counterexample :
    validateV1 [⟨1, 5, 15⟩, ⟨2, 15, 25⟩, ⟨3, 25, 35⟩, ⟨4, 35, 45⟩, ⟨5, 45, 55⟩, ⟨6, 55, 65⟩]
        = .error (.badSpan 0) ∧
    ([⟨1, 5, 15⟩, ⟨2, 15, 25⟩, ⟨3, 25, 35⟩, ⟨4, 35, 45⟩, ⟨5, 45, 55⟩, ⟨6, 55, 65⟩] :
        List ClipV1).length = 6 ∧
    spec_indices_ok_v1
      [⟨1, 5, 15⟩, ⟨2, 15, 25⟩, ⟨3, 25, 35⟩, ⟨4, 35, 45⟩, ⟨5, 45, 55⟩, ⟨6, 55, 65⟩] ∧
    spec_timing_ok_v1
      [⟨1, 5, 15⟩, ⟨2, 15, 25⟩, ⟨3, 25, 35⟩, ⟨4, 35, 45⟩, ⟨5, 45, 55⟩, ⟨6, 55, 65⟩] ∧
    spec_duration_ok_v1
      [⟨1, 5, 15⟩, ⟨2, 15, 25⟩, ⟨3, 25, 35⟩, ⟨4, 35, 45⟩, ⟨5, 45, 55⟩, ⟨6, 55, 65⟩] := by
  refine ⟨?_, rfl, ?_, ⟨?_, ?_⟩, ?_⟩
  · norm_num [validateV1, validateClipsV1]
  · intro i h
    have h6 : i < 6 := by simpa using h
    interval_cases i <;> norm_num
  · intro i h
    have h6 : i < 6 := by simpa using h
    interval_cases i <;> norm_num
  · intro i h
    have h6 : i + 1 < 6 := by simpa using h
    have h5 : i < 5 := by omega
    interval_cases i <;> norm_num
  · intro i h
    have h6 : i < 6 := by simpa using h
    interval_cases i <;> norm_num

/-- Claim C4 amended: for structurally valid plans, the v1 validator errors iff
the count is not 6, an index is not contiguous, a duration is off by more than
1e-6, or a clip misses its exact absolute span `[(i-1)*10, i*10)` (the span
rule subsumes monotonicity); the v2 validator errors iff an index is not
contiguous, some `end_sec ≤ start_sec`, the first clip starts before the `-1`
sentinel, consecutive clips overlap, or a mode/field mismatch occurs; and a
clip whose speech text is shorter than 90 characters only contributes a warning
— validation still succeeds and the warning names the clip. -/
theorem validators_error_iff :
    (∀ cl : List ClipV1, validateV1 cl = .ok cl ↔
      (cl.length = 6 ∧ spec_indices_ok_v1 cl ∧ spec_duration_ok_v1 cl ∧
        spec_span_ok_v1 cl)) ∧
    (∀ cl : List ClipV2, (∃ w, validateV2 cl = .ok (cl, w)) ↔
      (spec_indices_ok_v2 cl ∧ spec_order_ok_v2 cl ∧ spec_head_ok_v2 cl ∧
        spec_overlap_ok_v2 cl ∧
        ∀ (i : ℕ) (h : i < cl.length), spec_mode_ok_v2 (cl.get ⟨i, h⟩))) ∧
    (∀ (cl : List ClipV2) (out : List ClipV2 × List (ℕ × ℕ)), validateV2 cl = .ok out →
      ∀ (i : ℕ) (h : i < cl.length), speechLen (cl.get ⟨i, h⟩) < 90 →
        (i, speechLen (cl.get ⟨i, h⟩)) ∈ out.2) := by
  refine ⟨?_, ?_, ?_⟩
  · intro cl
    have hv : validateV1 cl = .ok cl ↔ (cl.length = 6 ∧ validateClipsV1 cl 1 = .ok ()) := by
      rw [validateV1]
      by_cases hlen : cl.length ≠ 6
      · rw [if_pos hlen]
        exact iff_of_false (by simp) (fun hr => hlen hr.1)
      · rw [if_neg hlen]
        have hl6 : cl.length = 6 := not_not.mp hlen
        cases hrec : validateClipsV1 cl 1 with
        | error e =>
            exact iff_of_false (by simp) (fun hr => absurd hr.2 (by simp))
        | ok u =>
            cases u
            simp [hl6]
    rw [hv, validateClipsV1_ok_iff cl 1]
    have hsplit : (∀ (i : ℕ) (h : i < cl.length), v1_clip_ok (cl.get ⟨i, h⟩) (1 + i)) ↔
        (spec_indices_ok_v1 cl ∧ spec_duration_ok_v1 cl ∧ spec_span_ok_v1 cl) := by
      unfold v1_clip_ok spec_indices_ok_v1 spec_duration_ok_v1 spec_span_ok_v1
      constructor
      · intro H
        refine ⟨fun i h => ?_, fun i h => (H i h).2.1, fun i h => ⟨?_, ?_⟩⟩
        · have h1 := (H i h).1
          push_cast at h1 ⊢
          omega
        · have h3 := (H i h).2.2.1
          push_cast at h3
          rw [h3]; ring
        · have h4 := (H i h).2.2.2
          push_cast at h4
          rw [h4]; ring
      · rintro ⟨H1, H2, H3⟩ i h
        refine ⟨?_, H2 i h, ?_, ?_⟩
        · have h1 := H1 i h
          push_cast
          omega
        · have h3 := (H3 i h).1
          push_cast
          rw [h3]; ring
        · have h4 := (H3 i h).2
          push_cast
          rw [h4]; ring
    rw [hsplit]
  · intro cl
    have hv : (∃ w, validateV2 cl = .ok (cl, w)) ↔
        (∃ w, validateClipsV2 cl 1 (-1) = .ok w) := by
      rw [validateV2]
      cases hrec : validateClipsV2 cl 1 (-1) with
      | error e => simp
      | ok w => simp
    rw [hv, validateClipsV2_ok_iff cl 1 (-1)]
    have hsplit : (∀ (i : ℕ) (h : i < cl.length), v2_clip_ok (cl.get ⟨i, h⟩) (1 + i)) ↔
        (spec_indices_ok_v2 cl ∧ spec_order_ok_v2 cl ∧
          ∀ (i : ℕ) (h : i < cl.length), spec_mode_ok_v2 (cl.get ⟨i, h⟩)) := by
      unfold v2_clip_ok spec_indices_ok_v2 spec_order_ok_v2
      constructor
      · intro H
        refine ⟨fun i h => ?_, fun i h => (H i h).2.1, fun i h => (H i h).2.2⟩
        have h1 := (H i h).1
        push_cast at h1 ⊢
        omega
      · rintro ⟨H1, H2, H3⟩ i h
        refine ⟨?_, H2 i h, H3 i h⟩
        have h1 := H1 i h
        push_cast
        omega
    rw [hsplit]
    unfold spec_head_ok_v2 spec_overlap_ok_v2
    tauto
  · intro cl out h
    have h1 : validateClipsV2 cl 1 (-1) = .ok out.2 ∧ out.1 = cl := by
      rw [validateV2] at h
      cases hrec : validateClipsV2 cl 1 (-1) with
      | error e =>
          rw [hrec] at h
          exact absurd h (by simp)
      | ok w =>
          rw [hrec] at h
          simp only [Except.ok.injEq] at h
          subst h
          exact ⟨rfl, rfl⟩
    intro i hi hshort
    have hmem := validateClipsV2_warnings cl 1 (-1) out.2 (le_refl 1) h1.1 i hi hshort
    simpa using hmem

/-- Witness for the amended C4: the canonical six-clip `[0,60)` v1 plan is
accepted, so by the iff it satisfies count, indices, durations and spans. -/
theorem validators_error_iff_witness :
    ([⟨1, 0, 10⟩, ⟨2, 10, 20⟩, ⟨3, 20, 30⟩, ⟨4, 30, 40⟩, ⟨5, 40, 50⟩, ⟨6, 50, 60⟩] :
        List ClipV1).length = 6 ∧
    spec_indices_ok_v1
      [⟨1, 0, 10⟩, ⟨2, 10, 20⟩, ⟨3, 20, 30⟩, ⟨4, 30, 40⟩, ⟨5, 40, 50⟩, ⟨6, 50, 60⟩] ∧
    spec_duration_ok_v1
      [⟨1, 0, 10⟩, ⟨2, 10, 20⟩, ⟨3, 20, 30⟩, ⟨4, 30, 40⟩, ⟨5, 40, 50⟩, ⟨6, 50, 60⟩] ∧
    spec_span_ok_v1
      [⟨1, 0, 10⟩, ⟨2, 10, 20⟩, ⟨3, 20, 30⟩, ⟨4, 30, 40⟩, ⟨5, 40, 50⟩, ⟨6, 50, 60⟩] := by
  have h1 : validateV1
      [⟨1, 0, 10⟩, ⟨2, 10, 20⟩, ⟨3, 20, 30⟩, ⟨4, 30, 40⟩, ⟨5, 40, 50⟩, ⟨6, 50, 60⟩]
      = .ok [⟨1, 0, 10⟩, ⟨2, 10, 20⟩, ⟨3, 20, 30⟩, ⟨4, 30, 40⟩, ⟨5, 40, 50⟩, ⟨6, 50, 60⟩] := by
    norm_num [validateV1, validateClipsV1]
  exact (validators_error_iff.1
    [⟨1, 0, 10⟩, ⟨2, 10, 20⟩, ⟨3, 20, 30⟩, ⟨4, 30, 40⟩, ⟨5, 40, 50⟩, ⟨6, 50, 60⟩]).mp h1
